import Mathlib

/-
Verification of the strava-activity-updater repository.

The Go sources are shallowly embedded: pure logic is translated to Lean
functions; the HTTP world is passed in explicitly as an environment value
(the response the server would give), and the network requests a function
issues are returned as an explicit trace so that "no network call" and
"exactly one call per item" become provable statements.
-/

namespace Strava

/-- Embeds `auth.StravaConfig` (src/auth/strava.go): the persisted
credential record. -/
structure StravaConfig where
  clientID : String
  clientSecret : String
  refreshToken : String
  accessToken : String
  expiresAt : Int
deriving Repr, DecidableEq

/-- Embeds `auth.TokenResponse` (src/auth/strava.go): the decoded body of a
successful token-refresh response. -/
structure TokenResponse where
  tokenType : String
  accessToken : String
  expiresAt : Int
  expiresIn : Int
  refreshToken : String
deriving Repr, DecidableEq

/-- An HTTP response to the token-refresh POST, as the Go code observes it:
the numeric status code, the textual status line (Go `resp.Status`), the raw
body, and the result of JSON-decoding the body into a `TokenResponse`
(`none` models a decode failure). -/
structure TokenHttpResponse where
  statusCode : Nat
  status : String
  body : String
  decoded : Option TokenResponse
deriving Repr, DecidableEq

/-- The form-encoded POST request `RefreshToken` sends to the token
endpoint (src/auth/strava.go lines 41-47). -/
structure TokenPostRequest where
  clientID : String
  clientSecret : String
  refreshToken : String
  grantType : String
deriving Repr, DecidableEq

/-- Outcome of a token-manager call: the Go error value, the final state of
the (in Go, mutated-in-place) config record, the trace of network POSTs
issued, and how many times the refresh operation ran. -/
structure RefreshOutcome where
  result : Except String Unit
  config : StravaConfig
  posts : List TokenPostRequest
  refreshes : Nat

/-- The POST request built from a config record (src/auth/strava.go
lines 41-45). -/
def refreshPostRequest (config : StravaConfig) : TokenPostRequest :=
  ⟨config.clientID, config.clientSecret, config.refreshToken, "refresh_token"⟩

/-- Embeds `auth.RefreshToken` (src/auth/strava.go lines 36-68). `env` is
the HTTP world: `.error e` models a transport failure of the POST, `.ok r`
the response received. The Go function mutates `config` in place only on
the full-success path; every error path leaves it untouched. -/
def RefreshToken (env : Except String TokenHttpResponse) (config : StravaConfig) :
    RefreshOutcome :=
  if config.clientID = "" ∨ config.clientSecret = "" then
    ⟨.error "client ID and client secret must be set in the config file", config, [], 1⟩
  else
    match env with
    | .error e => ⟨.error ("failed to request token: " ++ e), config,
        [refreshPostRequest config], 1⟩
    | .ok resp =>
      if resp.statusCode ≠ 200 then
        ⟨.error ("failed to refresh token: " ++ resp.status ++ " - " ++ resp.body),
          config, [refreshPostRequest config], 1⟩
      else
        match resp.decoded with
        | none => ⟨.error "failed to decode token response", config,
            [refreshPostRequest config], 1⟩
        | some t =>
          ⟨.ok (), ⟨config.clientID, config.clientSecret, t.refreshToken,
            t.accessToken, t.expiresAt⟩, [refreshPostRequest config], 1⟩

/-- Embeds `auth.EnsureValidToken` (src/auth/strava.go lines 29-34). `now`
is `time.Now().Unix()`. -/
def EnsureValidToken (now : Int) (env : Except String TokenHttpResponse)
    (config : StravaConfig) : RefreshOutcome :=
  if config.accessToken = "" ∨ now ≥ config.expiresAt then
    RefreshToken env config
  else
    ⟨.ok (), config, [], 0⟩

theorem RefreshToken_refreshes (env : Except String TokenHttpResponse)
    (config : StravaConfig) : (RefreshToken env config).refreshes = 1 := by
  unfold RefreshToken
  split
  · rfl
  · cases env with
    | error e => rfl
    | ok resp =>
      dsimp only
      split
      · rfl
      · cases resp.decoded <;> rfl

theorem RefreshToken_error_frame (env : Except String TokenHttpResponse)
    (config : StravaConfig) (e : String)
    (h : (RefreshToken env config).result = .error e) :
    (RefreshToken env config).config = config := by
  by_cases hc : config.clientID = "" ∨ config.clientSecret = ""
  · simp [RefreshToken, hc]
  · cases env with
    | error e0 => simp [RefreshToken, hc]
    | ok resp =>
      by_cases hst : resp.statusCode ≠ 200
      · simp [RefreshToken, hc, hst]
      · cases hd : resp.decoded with
        | none => simp [RefreshToken, hc, hst, hd]
        | some t => simp [RefreshToken, hc, hst, hd] at h

theorem RefreshToken_ok_updates (env : Except String TokenHttpResponse)
    (config : StravaConfig)
    (h : (RefreshToken env config).result = .ok ()) :
    ∃ resp t, env = .ok resp ∧ resp.decoded = some t ∧
      (RefreshToken env config).config =
        ⟨config.clientID, config.clientSecret, t.refreshToken, t.accessToken,
          t.expiresAt⟩ := by
  by_cases hc : config.clientID = "" ∨ config.clientSecret = ""
  · simp [RefreshToken, hc] at h
  · cases env with
    | error e0 => simp [RefreshToken, hc] at h
    | ok resp =>
      by_cases hst : resp.statusCode ≠ 200
      · simp [RefreshToken, hc, hst] at h
      · cases hd : resp.decoded with
        | none => simp [RefreshToken, hc, hst, hd] at h
        | some t => exact ⟨resp, t, rfl, hd, by simp [RefreshToken, hc, hst, hd]⟩

/-- C2: for every credential record whose access token is empty or whose
expiry is not in the future, `EnsureValidToken` performs exactly one
refresh, and the refresh is atomic: on success the access token, refresh
token and expiry are all overwritten from the decoded response, and on any
failure the record is unchanged. -/
theorem ensureValidToken_expired_refreshes_atomically
    (now : Int) (env : Except String TokenHttpResponse) (config : StravaConfig)
    (h : config.accessToken = "" ∨ now ≥ config.expiresAt) :
    (EnsureValidToken now env config).refreshes = 1 ∧
    ((EnsureValidToken now env config).result = .ok () →
      ∃ resp t, env = .ok resp ∧ resp.decoded = some t ∧
        (EnsureValidToken now env config).config =
          ⟨config.clientID, config.clientSecret, t.refreshToken, t.accessToken,
            t.expiresAt⟩) ∧
    (∀ e, (EnsureValidToken now env config).result = .error e →
      (EnsureValidToken now env config).config = config) := by
  have hE : EnsureValidToken now env config = RefreshToken env config := by
    unfold EnsureValidToken; exact if_pos h
  rw [hE]
  exact ⟨RefreshToken_refreshes env config,
    RefreshToken_ok_updates env config,
    fun e he => RefreshToken_error_frame env config e he⟩

/-- A concrete credential record with an empty access token. -/
def cfgExpired : StravaConfig := ⟨"id123", "secret456", "rt789", "", 0⟩

/-- A concrete successful token-refresh response. -/
def envRefreshOk : Except String TokenHttpResponse :=
  .ok ⟨200, "200 OK", "", some ⟨"Bearer", "newAccess", 999, 3600, "newRefresh"⟩⟩

theorem ensureValidToken_expired_refreshes_atomically_witness :
    (cfgExpired.accessToken = "" ∨ (5 : Int) ≥ cfgExpired.expiresAt) ∧
    ((EnsureValidToken 5 envRefreshOk cfgExpired).refreshes = 1 ∧
    ((EnsureValidToken 5 envRefreshOk cfgExpired).result = .ok () →
      ∃ resp t, envRefreshOk = .ok resp ∧ resp.decoded = some t ∧
        (EnsureValidToken 5 envRefreshOk cfgExpired).config =
          ⟨cfgExpired.clientID, cfgExpired.clientSecret, t.refreshToken,
            t.accessToken, t.expiresAt⟩) ∧
    (∀ e, (EnsureValidToken 5 envRefreshOk cfgExpired).result = .error e →
      (EnsureValidToken 5 envRefreshOk cfgExpired).config = cfgExpired)) :=
  ⟨Or.inl rfl,
    ensureValidToken_expired_refreshes_atomically 5 envRefreshOk cfgExpired
      (Or.inl rfl)⟩

/-- C3: for every credential record with a non-empty access token and an
expiry strictly in the future, `EnsureValidToken` issues no network call,
runs zero refreshes, returns success, and leaves every field of the record
unchanged. -/
theorem ensureValidToken_valid_noop
    (now : Int) (env : Except String TokenHttpResponse) (config : StravaConfig)
    (h1 : config.accessToken ≠ "") (h2 : now < config.expiresAt) :
    EnsureValidToken now env config = ⟨.ok (), config, [], 0⟩ := by
  unfold EnsureValidToken
  rw [if_neg]
  rintro (hc | hc)
  · exact h1 hc
  · exact absurd h2 (not_lt.mpr hc)

/-- A concrete credential record with a live access token. -/
def cfgValid : StravaConfig := ⟨"id123", "secret456", "rt789", "liveToken", 100⟩

theorem ensureValidToken_valid_noop_witness :
    (cfgValid.accessToken ≠ "" ∧ (5 : Int) < cfgValid.expiresAt) ∧
    EnsureValidToken 5 envRefreshOk cfgValid = ⟨.ok (), cfgValid, [], 0⟩ :=
  ⟨⟨by decide, by decide⟩,
    ensureValidToken_valid_noop 5 envRefreshOk cfgValid (by decide) (by decide)⟩

/-- C7: a refresh with an empty client id or client secret fails with the
configuration error and issues no network request; a refresh that reaches
the provider and gets a non-200 status fails with an error carrying the
response status and body, leaving the record unchanged. -/
theorem refreshToken_error_paths
    (env : Except String TokenHttpResponse) (config : StravaConfig) :
    ((config.clientID = "" ∨ config.clientSecret = "") →
      RefreshToken env config =
        ⟨.error "client ID and client secret must be set in the config file",
          config, [], 1⟩) ∧
    (∀ resp, config.clientID ≠ "" → config.clientSecret ≠ "" →
      env = .ok resp → resp.statusCode ≠ 200 →
      RefreshToken env config =
        ⟨.error ("failed to refresh token: " ++ resp.status ++ " - " ++ resp.body),
          config, [refreshPostRequest config], 1⟩) := by
  constructor
  · intro h
    unfold RefreshToken
    rw [if_pos h]
  · intro resp h1 h2 henv hst
    subst henv
    unfold RefreshToken
    rw [if_neg]
    · dsimp only
      rw [if_pos hst]
    · rintro (hc | hc)
      · exact h1 hc
      · exact h2 hc

/-- A concrete credential record missing its client secret. -/
def cfgNoSecret : StravaConfig := ⟨"id123", "", "rt789", "", 0⟩

/-- A concrete rejected (401) token-refresh response. -/
def respUnauthorized : TokenHttpResponse :=
  ⟨401, "401 Unauthorized", "bad token", none⟩

theorem refreshToken_error_paths_witness :
    ((cfgNoSecret.clientID = "" ∨ cfgNoSecret.clientSecret = "") ∧
      RefreshToken (.ok respUnauthorized) cfgNoSecret =
        ⟨.error "client ID and client secret must be set in the config file",
          cfgNoSecret, [], 1⟩) ∧
    ((cfgExpired.clientID ≠ "" ∧ cfgExpired.clientSecret ≠ "" ∧
        respUnauthorized.statusCode ≠ 200) ∧
      RefreshToken (.ok respUnauthorized) cfgExpired =
        ⟨.error ("failed to refresh token: " ++ respUnauthorized.status ++ " - " ++
            respUnauthorized.body),
          cfgExpired, [refreshPostRequest cfgExpired], 1⟩) :=
  ⟨⟨Or.inr rfl,
      (refreshToken_error_paths (.ok respUnauthorized) cfgNoSecret).1 (Or.inr rfl)⟩,
    ⟨⟨by decide, by decide, by decide⟩,
      (refreshToken_error_paths (.ok respUnauthorized) cfgExpired).2
        respUnauthorized (by decide) (by decide) rfl (by decide)⟩⟩

/-- C10: whatever happens (no-op, successful refresh, or any failed
refresh), `EnsureValidToken` never changes the client id or client secret;
only access token, refresh token and expiry are ever written. -/
theorem ensureValidToken_preserves_client_credentials
    (now : Int) (env : Except String TokenHttpResponse) (config : StravaConfig) :
    (EnsureValidToken now env config).config.clientID = config.clientID ∧
    (EnsureValidToken now env config).config.clientSecret = config.clientSecret := by
  unfold EnsureValidToken
  split
  · unfold RefreshToken
    split
    · exact ⟨rfl, rfl⟩
    · cases env with
      | error e => exact ⟨rfl, rfl⟩
      | ok resp =>
        dsimp only
        split
        · exact ⟨rfl, rfl⟩
        · cases resp.decoded <;> exact ⟨rfl, rfl⟩
  · exact ⟨rfl, rfl⟩

/-- Embeds `strava.Activity` (src/strava/types.go). The start timestamp is
modelled as an integer (Unix seconds). -/
structure Activity where
  id : Int
  name : String
  sportType : String
  startDate : Int
  description : String
deriving Repr, DecidableEq

/-- Page size used by `GetAllActivities` (src/strava/api.go line 16):
maximum allowed by the Strava API. -/
def perPage : Nat := 200

/-- The loop body of `strava.GetAllActivities` (src/strava/api.go
lines 18-59). `server` maps a page number to the outcome of fetching that
page: `.error e` models any failed page request (transport failure, non-200
status, or decode failure — the loop aborts the whole fetch on each of
those), `.ok l` the decoded activities of the page. `fuel` bounds the
number of iterations; `none` means fuel ran out (the Go loop just keeps
going). -/
def getAllActivitiesLoop (server : Nat → Except String (List Activity)) :
    Nat → List Activity → Nat → Option (Except String (List Activity))
  | 0, _, _ => none
  | fuel + 1, allActivities, page =>
    match server page with
    | .error e => some (.error e)
    | .ok activities =>
      if activities.length = 0 then some (.ok allActivities)
      else
        if activities.length < perPage then some (.ok (allActivities ++ activities))
        else getAllActivitiesLoop server fuel (allActivities ++ activities) (page + 1)

/-- Embeds `strava.GetAllActivities` (src/strava/api.go lines 13-62):
starts with an empty accumulator at page 1. -/
def GetAllActivities (server : Nat → Except String (List Activity)) (fuel : Nat) :
    Option (Except String (List Activity)) :=
  getAllActivitiesLoop server fuel [] 1

/-- Concatenation of the pages `page, page+1, ..., page+k-1`, in order. -/
def pageConcat (pages : Nat → List Activity) (page : Nat) : Nat → List Activity
  | 0 => []
  | k + 1 => pages page ++ pageConcat pages (page + 1) k

theorem getAllActivitiesLoop_spec (server : Nat → Except String (List Activity))
    (pages : Nat → List Activity) :
    ∀ k acc page fuel,
      (∀ i, page ≤ i → i ≤ page + k → server i = .ok (pages i)) →
      (∀ i, page ≤ i → i < page + k → (pages i).length = perPage) →
      (pages (page + k)).length < perPage →
      k + 1 ≤ fuel →
      getAllActivitiesLoop server fuel acc page =
        some (.ok (acc ++ pageConcat pages page (k + 1))) := by
  intro k
  induction k with
  | zero =>
    intro acc page fuel hok _ hlast hfuel
    obtain ⟨f, rfl⟩ : ∃ f, fuel = f + 1 := ⟨fuel - 1, by omega⟩
    have hpg : server page = .ok (pages page) := hok page le_rfl (by omega)
    by_cases hz : (pages page).length = 0
    · have : pages page = [] := List.length_eq_zero.mp hz
      simp [getAllActivitiesLoop, hpg, hz, pageConcat, this]
    · simp only [getAllActivitiesLoop, hpg]
      rw [if_neg hz, if_pos (by simpa using hlast)]
      simp [pageConcat]
  | succ k ih =>
    intro acc page fuel hok hfull hlast hfuel
    obtain ⟨f, rfl⟩ : ∃ f, fuel = f + 1 := ⟨fuel - 1, by omega⟩
    have hpg : server page = .ok (pages page) := hok page le_rfl (by omega)
    have hlen : (pages page).length = perPage := hfull page le_rfl (by omega)
    simp only [getAllActivitiesLoop, hpg]
    rw [if_neg (by simp [hlen, perPage]), if_neg (by simp [hlen])]
    rw [ih (acc ++ pages page) (page + 1) f
      (fun i h1 h2 => hok i (by omega) (by omega))
      (fun i h1 h2 => hfull i (by omega) (by omega))
      (by have := hlast; rwa [show page + 1 + k = page + (k + 1) by omega])
      (by omega)]
    simp [pageConcat, List.append_assoc]

/-- C1: for every server behavior that answers every page request, if pages
1 through n-1 each contain exactly 200 activities and page n contains fewer
than 200 (possibly zero), then `GetAllActivities` — which starts at page 1
with page size 200 — returns exactly the concatenation of pages 1..n in
order, stopping at page n. -/
theorem getAllActivities_pagination (server : Nat → Except String (List Activity))
    (pages : Nat → List Activity) (n fuel : Nat)
    (hn : 1 ≤ n)
    (hok : ∀ i, 1 ≤ i → i ≤ n → server i = .ok (pages i))
    (hfull : ∀ i, 1 ≤ i → i < n → (pages i).length = perPage)
    (hlast : (pages n).length < perPage)
    (hfuel : n ≤ fuel) :
    GetAllActivities server fuel = some (.ok (pageConcat pages 1 n)) := by
  obtain ⟨k, rfl⟩ : ∃ k, n = k + 1 := ⟨n - 1, by omega⟩
  exact getAllActivitiesLoop_spec server pages k [] 1 fuel
    (fun i h1 h2 => hok i h1 (by omega))
    (fun i h1 h2 => hfull i h1 (by omega))
    (by simpa [Nat.add_comm] using hlast)
    (by omega)

/-- A stand-in activity used to populate concrete pages. -/
def mkActivity (i : Nat) : Activity := ⟨Int.ofNat i, "Run", "Run", 0, ""⟩

/-- Concrete pages of sizes 200, 200, 47. -/
def pagesA : Nat → List Activity
  | 1 => (List.range 200).map mkActivity
  | 2 => (List.range 200).map mkActivity
  | 3 => (List.range 47).map mkActivity
  | _ => []

/-- Concrete pages of sizes 200, 200, 200, 0. -/
def pagesB : Nat → List Activity
  | 1 => (List.range 200).map mkActivity
  | 2 => (List.range 200).map mkActivity
  | 3 => (List.range 200).map mkActivity
  | _ => []

theorem getAllActivities_pagination_witness :
    ((1 ≤ 3 ∧ (pagesA 3).length < perPage ∧ (3 : Nat) ≤ 5) ∧
      GetAllActivities (fun i => .ok (pagesA i)) 5 =
        some (.ok (pageConcat pagesA 1 3)) ∧
      (pageConcat pagesA 1 3).length = 447) ∧
    ((1 ≤ 4 ∧ (pagesB 4).length < perPage ∧ (4 : Nat) ≤ 5) ∧
      GetAllActivities (fun i => .ok (pagesB i)) 5 =
        some (.ok (pageConcat pagesB 1 4)) ∧
      (pageConcat pagesB 1 4).length = 600) := by
  refine ⟨⟨⟨by omega, by simp [pagesA, perPage], by omega⟩, ?_, ?_⟩,
    ⟨⟨by omega, by simp [pagesB, perPage], by omega⟩, ?_, ?_⟩⟩
  · exact getAllActivities_pagination (fun i => .ok (pagesA i)) pagesA 3 5
      (by omega) (fun i _ _ => rfl)
      (fun i h1 h2 => by interval_cases i <;> simp [pagesA, perPage])
      (by simp [pagesA, perPage]) (by omega)
  · simp [pageConcat, pagesA]
  · exact getAllActivities_pagination (fun i => .ok (pagesB i)) pagesB 4 5
      (by omega) (fun i _ _ => rfl)
      (fun i h1 h2 => by interval_cases i <;> simp [pagesB, perPage])
      (by simp [pagesB, perPage]) (by omega)
  · simp [pageConcat, pagesB]

/-- Embeds `strava.ActivityUpdate` (src/strava/types.go): a sparse partial
record; each field carries `json:"...,omitempty"`, so an empty string means
the field is omitted from the marshalled body. -/
structure ActivityUpdate where
  name : String
  sportType : String
  description : String
deriving Repr, DecidableEq

/-- JSON string literal for a name that contains no characters requiring
escaping (true of every string this repository ever marshals). -/
def jsonStringLit (s : String) : String := "\"" ++ s ++ "\""

/-- Comma-joined field list, as `encoding/json` lays out object members. -/
def joinComma : List String → String
  | [] => ""
  | [f] => f
  | f :: g :: rest => f ++ "," ++ joinComma (g :: rest)

/-- Embeds `json.Marshal` on an `ActivityUpdate`: struct-order fields, and
`omitempty` drops every field whose value is the empty string. An update
with all fields empty marshals to the empty object. -/
def marshalActivityUpdate (u : ActivityUpdate) : String :=
  let fields :=
    (if u.name = "" then [] else ["\"name\":" ++ jsonStringLit u.name]) ++
    (if u.sportType = "" then [] else ["\"sport_type\":" ++ jsonStringLit u.sportType]) ++
    (if u.description = "" then [] else ["\"description\":" ++ jsonStringLit u.description])
  "\x7b" ++ joinComma fields ++ "\x7d"

/-- Embeds the `nameMappings` table of the renamer (src/unnamed/part_001
lines 13-19), as an association list with the source's entry order. -/
def nameMappings : List (String × String) :=
  [("Pickup ice Hockey", "Pickup Ice Hockey"),
   ("Private Training Workout", "Private Training Session"),
   ("Workout w/Trainer", "Private Training Session"),
   ("Workout", "Gym Workout"),
   ("Gym Workou", "Gym Workout")]

/-- Go map lookup `nameMappings[name]` returning `none` when the key is
absent. -/
def lookupMapping (name : String) : Option String :=
  (nameMappings.find? (fun p => p.1 == name)).map (fun p => p.2)

/-- The renamer's match loop (src/unnamed/part_001 lines 64-70): an
activity is queued exactly when its name is a key of the mapping table. -/
def renamerQueue (activities : List Activity) : List Activity :=
  activities.filter (fun a => (lookupMapping a.name).isSome)

/-- The update payload the renamer builds for a queued activity
(src/unnamed/part_001 lines 94-97): only the name field is populated. Go
map indexing yields the zero value `""` for a missing key. -/
def renamerUpdate (a : Activity) : ActivityUpdate :=
  ⟨(lookupMapping a.name).getD "", "", ""⟩

/-- ASCII whitespace, the only kind appearing in this development; Go's
`unicode.IsSpace` extends it with further Unicode space characters. -/
def isSpaceChar (c : Char) : Bool :=
  c == ' ' || c == '\t' || c == '\n' || c == '\r'

/-- Embeds `strings.TrimSpace`: drop leading and trailing whitespace. -/
def trimSpace (s : String) : String :=
  ⟨((s.data.dropWhile isSpaceChar).reverse.dropWhile isSpaceChar).reverse⟩

/-- The whitespace normalizer's match loop (src/README.MD lines 263-269):
an activity is queued exactly when trimming changes its name. -/
def normalizerQueue (activities : List Activity) : List Activity :=
  activities.filter (fun a => trimSpace a.name != a.name)

/-- The update payload the normalizer builds (src/README.MD lines 293-296):
only the name field is populated, with the trimmed name. -/
def normalizerUpdate (a : Activity) : ActivityUpdate :=
  ⟨trimSpace a.name, "", ""⟩

/-- The apply loop shared by the renamer (src/unnamed/part_001
lines 92-107) and the normalizer (src/README.MD lines 291-306). `env` maps
an activity id to the outcome of its `UpdateActivity` call. Returns the
trace of update calls issued (id and payload, in order) and the ids whose
update succeeded; a per-item failure is logged and the loop continues. -/
def applyUpdates (env : Int → Except String Unit) (mk : Activity → ActivityUpdate) :
    List Activity → List (Int × ActivityUpdate) × List Int
  | [] => ([], [])
  | a :: rest =>
    let tail := applyUpdates env mk rest
    match env a.id with
    | .error _ => ((a.id, mk a) :: tail.1, tail.2)
    | .ok _ => ((a.id, mk a) :: tail.1, a.id :: tail.2)

/-- The shared tail of both mutating entry points: report-only when the
queue is empty, report-only under dry-run (the flag defaults to true), and
otherwise the apply loop over the queue. -/
def runMutatingTool (queue : List Activity) (mk : Activity → ActivityUpdate)
    (dryRun : Bool) (env : Int → Except String Unit) :
    List (Int × ActivityUpdate) × List Int :=
  if queue.length = 0 then ([], [])
  else if dryRun then ([], [])
  else applyUpdates env mk queue

/-- The renamer entry point's mutation phase (src/unnamed/part_001). -/
def runRenamer (dryRun : Bool) (env : Int → Except String Unit)
    (activities : List Activity) : List (Int × ActivityUpdate) × List Int :=
  runMutatingTool (renamerQueue activities) renamerUpdate dryRun env

/-- The whitespace normalizer entry point's mutation phase
(src/README.MD). -/
def runNormalizer (dryRun : Bool) (env : Int → Except String Unit)
    (activities : List Activity) : List (Int × ActivityUpdate) × List Int :=
  runMutatingTool (normalizerQueue activities) normalizerUpdate dryRun env

theorem applyUpdates_trace (env : Int → Except String Unit)
    (mk : Activity → ActivityUpdate) :
    ∀ l, (applyUpdates env mk l).1 = l.map (fun a => (a.id, mk a)) := by
  intro l
  induction l with
  | nil => rfl
  | cons a rest ih =>
    simp only [applyUpdates, List.map]
    cases env a.id <;> simp [ih]

theorem runMutatingTool_dry (queue : List Activity)
    (mk : Activity → ActivityUpdate) (env : Int → Except String Unit) :
    (runMutatingTool queue mk true env).1 = [] := by
  unfold runMutatingTool
  split <;> simp

theorem runMutatingTool_apply (queue : List Activity)
    (mk : Activity → ActivityUpdate) (env : Int → Except String Unit) :
    (runMutatingTool queue mk false env).1 =
      queue.map (fun a => (a.id, mk a)) := by
  unfold runMutatingTool
  by_cases h : queue.length = 0
  · have hq : queue = [] := List.length_eq_zero.mp h
    simp [hq]
  · simp [h, applyUpdates_trace]

/-- C6: under dry-run (the default) neither the renamer nor the whitespace
normalizer issues any update call; with dry-run off, each issues exactly
one update call per queued activity, in queue order, whatever the per-item
outcomes `env` are — so one activity's failure never aborts the batch. -/
theorem dryRun_gate_and_per_item_loop (env : Int → Except String Unit)
    (activities : List Activity) :
    (runRenamer true env activities).1 = [] ∧
    (runNormalizer true env activities).1 = [] ∧
    (runRenamer false env activities).1 =
      (renamerQueue activities).map (fun a => (a.id, renamerUpdate a)) ∧
    (runNormalizer false env activities).1 =
      (normalizerQueue activities).map (fun a => (a.id, normalizerUpdate a)) :=
  ⟨runMutatingTool_dry _ _ env, runMutatingTool_dry _ _ env,
    runMutatingTool_apply _ _ env, runMutatingTool_apply _ _ env⟩

/-- One pass of the renamer as observed on the server afterward: every
activity whose name is a mapping key now carries the mapped name
(src/unnamed/part_001 lines 92-107). -/
def applyRenamerPass (activities : List Activity) : List Activity :=
  activities.map (fun a =>
    match lookupMapping a.name with
    | some newName => ⟨a.id, newName, a.sportType, a.startDate, a.description⟩
    | none => a)

theorem lookupMapping_range_not_key (n v : String)
    (h : lookupMapping n = some v) : lookupMapping v = none := by
  obtain ⟨p, hp, hv⟩ := Option.map_eq_some'.mp h
  have hmem := List.mem_of_find?_eq_some hp
  subst hv
  simp only [nameMappings, List.mem_cons, List.not_mem_nil, or_false] at hmem
  rcases hmem with h1 | h1 | h1 | h1 | h1 <;> subst h1 <;> decide

theorem lookupMapping_value_nonempty (n v : String)
    (h : lookupMapping n = some v) : v ≠ "" := by
  obtain ⟨p, hp, hv⟩ := Option.map_eq_some'.mp h
  have hmem := List.mem_of_find?_eq_some hp
  subst hv
  simp only [nameMappings, List.mem_cons, List.not_mem_nil, or_false] at hmem
  rcases hmem with h1 | h1 | h1 | h1 | h1 <;> subst h1 <;> decide

/-- C5: the renamer is idempotent — after one pass has replaced every
mapped name, a second pass queues nothing, because no value in the mapping
table's range is itself a key. -/
theorem renamer_idempotent (activities : List Activity) :
    renamerQueue (applyRenamerPass activities) = [] := by
  unfold renamerQueue applyRenamerPass
  rw [List.filter_eq_nil_iff]
  intro b hb
  obtain ⟨a, ha, rfl⟩ := List.mem_map.mp hb
  cases h : lookupMapping a.name with
  | none => simp [h]
  | some v => simp [h, lookupMapping_range_not_key a.name v h]

theorem joinComma_length_ge (f : String) (l : List String) :
    f.length ≤ (joinComma (f :: l)).length := by
  cases l with
  | nil => simp [joinComma]
  | cons g rest => simp [joinComma, String.length_append]; omega

theorem marshal_populated_ne_empty (u : ActivityUpdate) (h : u.name ≠ "") :
    marshalActivityUpdate u ≠ "\x7b\x7d" := by
  intro hEq
  have hlen := congrArg String.length hEq
  unfold marshalActivityUpdate at hlen
  rw [if_neg h, List.singleton_append, List.cons_append] at hlen
  have hge := joinComma_length_ge ("\"name\":" ++ jsonStringLit u.name)
    ((if u.sportType = "" then [] else ["\"sport_type\":" ++ jsonStringLit u.sportType]) ++
      (if u.description = "" then [] else ["\"description\":" ++ jsonStringLit u.description]))
  rw [String.length_append, String.length_append] at hlen
  rw [String.length_append] at hge
  have h7b : ("\x7b" : String).length = 1 := rfl
  have h7d : ("\x7d" : String).length = 1 := rfl
  have hbr : ("\x7b\x7d" : String).length = 2 := rfl
  have hn : ("\"name\":" : String).length = 7 := rfl
  rw [h7b, h7d, hbr] at hlen
  rw [hn] at hge
  omega

/-- C4 (amended): every activity the renamer queues gets an update whose
name field is populated (hence a non-empty JSON body); an activity the
whitespace normalizer queues gets a populated update exactly when its
trimmed name is non-empty — a name consisting entirely of whitespace
produces an update with every field empty. -/
theorem queued_updates_populated (activities : List Activity) :
    (∀ a ∈ renamerQueue activities,
      (renamerUpdate a).name ≠ "" ∧
      marshalActivityUpdate (renamerUpdate a) ≠ "\x7b\x7d") ∧
    (∀ a ∈ normalizerQueue activities, trimSpace a.name ≠ "" →
      (normalizerUpdate a).name ≠ "" ∧
      marshalActivityUpdate (normalizerUpdate a) ≠ "\x7b\x7d") := by
  constructor
  · intro a ha
    have hq : (lookupMapping a.name).isSome := by
      unfold renamerQueue at ha
      exact (List.mem_filter.mp ha).2
    obtain ⟨v, hv⟩ := Option.isSome_iff_exists.mp hq
    have hvne : v ≠ "" := lookupMapping_value_nonempty a.name v hv
    have hname : (renamerUpdate a).name = v := by simp [renamerUpdate, hv]
    exact ⟨by rw [hname]; exact hvne,
      marshal_populated_ne_empty _ (by rw [hname]; exact hvne)⟩
  · intro a _ htrim
    exact ⟨htrim, marshal_populated_ne_empty _ htrim⟩

/-- A concrete activity the renamer queues. -/
def workoutActivity : Activity := ⟨77, "Workout", "Workout", 0, ""⟩

/-- A concrete activity the normalizer queues, with non-whitespace
content. -/
def paddedActivity : Activity := ⟨78, " Ride", "Ride", 0, ""⟩

theorem queued_updates_populated_witness :
    (workoutActivity ∈ renamerQueue [workoutActivity, paddedActivity] ∧
      (renamerUpdate workoutActivity).name ≠ "" ∧
      marshalActivityUpdate (renamerUpdate workoutActivity) ≠ "\x7b\x7d") ∧
    (paddedActivity ∈ normalizerQueue [workoutActivity, paddedActivity] ∧
      trimSpace paddedActivity.name ≠ "" ∧
      (normalizerUpdate paddedActivity).name ≠ "" ∧
      marshalActivityUpdate (normalizerUpdate paddedActivity) ≠ "\x7b\x7d") := by
  refine ⟨⟨by decide, ?_⟩, ⟨by decide, by decide, ?_⟩⟩
  · exact (queued_updates_populated [workoutActivity, paddedActivity]).1
      workoutActivity (by decide)
  · exact (queued_updates_populated [workoutActivity, paddedActivity]).2
      paddedActivity (by decide) (by decide)

/-- A concrete activity whose name is entirely whitespace. -/
def allSpacesActivity : Activity := ⟨12345, "   ", "Workout", 0, ""⟩

theorem normalizer_empty_update_counterexample :
    allSpacesActivity ∈ normalizerQueue [allSpacesActivity] ∧
    (runNormalizer false (fun _ => .ok ()) [allSpacesActivity]).1 =
      [(12345, ⟨"", "", ""⟩)] ∧
    marshalActivityUpdate ⟨"", "", ""⟩ = "\x7b\x7d" := by
  refine ⟨by decide, by decide, rfl⟩

/-- One step of the counter's tally `activityCounts[activity.Name]++`
(src/strava-activity-counter.go lines 61-62), on a map modelled as an
association list in first-insertion order. -/
def bumpCount : List (String × Nat) → String → List (String × Nat)
  | [], n => [(n, 1)]
  | (m, c) :: rest, n =>
    if m = n then (m, c + 1) :: rest else (m, c) :: bumpCount rest n

/-- The counter's grouping loop (src/strava-activity-counter.go
lines 58-64): tally activities by exact name. -/
def activityCounts (activities : List Activity) : List (String × Nat) :=
  activities.foldl (fun counts a => bumpCount counts a.name) []

/-- Map read-out: the count recorded for a name (0 when absent). -/
def countOf : List (String × Nat) → String → Nat
  | [], _ => 0
  | (m, c) :: rest, n => if m = n then c else countOf rest n

/-- One insertion step of the counter's `sort.Slice` by descending count
(src/strava-activity-counter.go lines 82-84). -/
def insertByCountDesc (p : String × Nat) :
    List (String × Nat) → List (String × Nat)
  | [] => [p]
  | q :: rest =>
    if q.2 < p.2 then p :: q :: rest else q :: insertByCountDesc p rest

/-- Sorting the groups by count, descending. -/
def sortByCountDesc : List (String × Nat) → List (String × Nat)
  | [] => []
  | p :: rest => insertByCountDesc p (sortByCountDesc rest)

/-- The print-time space visualization (src/strava-activity-counter.go
lines 92-101): interior spaces become `·`, a leading space adds `→`, a
trailing space adds `←`. -/
def visualizeName (n : String) : String :=
  let v := String.mk (n.data.map (fun c => if c == ' ' then '·' else c))
  let v2 := if n.data.head? == some ' ' then "→" ++ v else v
  if n.data.getLast? == some ' ' then v2 ++ "←" else v2

/-- What the counter prints, one line per group (src/strava-activity-counter.go
lines 89-102): the sorted groups, with only the displayed name visualized. -/
def printedReport (activities : List Activity) : List (String × Nat) :=
  (sortByCountDesc (activityCounts activities)).map
    (fun p => (visualizeName p.1, p.2))

theorem countOf_bumpCount (counts : List (String × Nat)) (k n : String) :
    countOf (bumpCount counts k) n =
      countOf counts n + (if k = n then 1 else 0) := by
  induction counts with
  | nil => simp [bumpCount, countOf]
  | cons p rest ih =>
    obtain ⟨m, c⟩ := p
    by_cases hmk : m = k
    · subst hmk
      by_cases hmn : m = n
      · subst hmn; simp [bumpCount, countOf]
      · simp [bumpCount, countOf, hmn]
    · by_cases hmn : m = n
      · have hkn : ¬k = n := fun h => hmk (hmn.trans h.symm)
        have hnk : ¬n = k := fun h => hkn h.symm
        simp [bumpCount, countOf, hmk, hmn, hkn, hnk]
      · simp [bumpCount, countOf, hmk, hmn, ih]

theorem countOf_foldl_bumpCount (n : String) :
    ∀ (l : List Activity) (counts : List (String × Nat)),
      countOf (l.foldl (fun cs a => bumpCount cs a.name) counts) n =
        countOf counts n + (l.filter (fun a => a.name == n)).length := by
  intro l
  induction l with
  | nil => intro counts; simp
  | cons a rest ih =>
    intro counts
    rw [List.foldl_cons, ih]
    rw [countOf_bumpCount]
    by_cases h : a.name = n
    · simp [List.filter_cons, h]; omega
    · simp [List.filter_cons, h]

theorem insertByCountDesc_perm (p : String × Nat) :
    ∀ l, List.Perm (insertByCountDesc p l) (p :: l)
  | [] => .refl _
  | q :: rest => by
    unfold insertByCountDesc
    split
    · exact .refl _
    · exact ((insertByCountDesc_perm p rest).cons q).trans (List.Perm.swap p q rest)

theorem sortByCountDesc_perm : ∀ l, List.Perm (sortByCountDesc l) l
  | [] => .refl _
  | p :: rest =>
    (insertByCountDesc_perm p (sortByCountDesc rest)).trans
      ((sortByCountDesc_perm rest).cons p)

/-- Three activities whose names differ only in surrounding spaces. -/
def exampleActivities : List Activity :=
  [⟨1, "A ", "Run", 0, ""⟩, ⟨2, " A", "Run", 0, ""⟩, ⟨3, "A", "Run", 0, ""⟩]

/-- C8: the counter groups by exact string equality of the name — the count
recorded for a name is precisely the number of activities whose name is
that identical string, so the names "A ", " A", "A" form three groups of
count 1 — and the space/arrow markers are applied only at print time: every
printed line is a group of the tally with only its displayed name
visualized, with counts and the number of groups unchanged. -/
theorem counter_groups_by_exact_name :
    (∀ activities n, countOf (activityCounts activities) n =
      (activities.filter (fun a => a.name == n)).length) ∧
    activityCounts exampleActivities = [("A ", 1), (" A", 1), ("A", 1)] ∧
    (∀ activities,
      List.Perm ((printedReport activities).map Prod.snd)
        ((activityCounts activities).map Prod.snd) ∧
      ∀ q ∈ printedReport activities, ∃ p ∈ activityCounts activities,
        q = (visualizeName p.1, p.2)) := by
  refine ⟨?_, by decide, ?_⟩
  · intro activities n
    rw [activityCounts, countOf_foldl_bumpCount]
    simp [countOf]
  · intro activities
    constructor
    · have h1 : (printedReport activities).map Prod.snd =
          (sortByCountDesc (activityCounts activities)).map Prod.snd := by
        simp [printedReport, List.map_map, Function.comp]
      rw [h1]
      exact (sortByCountDesc_perm (activityCounts activities)).map Prod.snd
    · intro q hq
      obtain ⟨p, hp, rfl⟩ := List.mem_map.mp hq
      exact ⟨p, (sortByCountDesc_perm (activityCounts activities)).mem_iff.mp hp,
        rfl⟩

theorem counter_groups_by_exact_name_witness :
    countOf (activityCounts exampleActivities) "A" =
      (exampleActivities.filter (fun a => a.name == "A")).length ∧
    (("A·←", 1) ∈ printedReport exampleActivities ∧
      ∃ p ∈ activityCounts exampleActivities, ("A·←", 1) = (visualizeName p.1, p.2)) :=
  ⟨counter_groups_by_exact_name.1 exampleActivities "A",
    by decide,
    (counter_groups_by_exact_name.2.2 exampleActivities).2 ("A·←", 1) (by decide)⟩

/-- An HTTP response to the activity-list GET, as the Go code observes it;
`decoded` is the result of JSON-decoding the body into a list of
activities, with `.error` modelling a decode failure. -/
structure ActivitiesHttpResponse where
  statusCode : Nat
  status : String
  body : String
  decoded : Except String (List Activity)
deriving Repr

/-- Embeds `strava.GetLatestActivity` (src/strava/api.go lines 64-97).
`env` is the outcome of the single GET it issues; the second component is
the trace of request URLs. -/
def GetLatestActivity (env : Except String ActivitiesHttpResponse) :
    Except String Activity × List String :=
  let url := "https://www.strava.com/api/v3/athlete/activities?per_page=1"
  match env with
  | .error e => (.error ("failed to get activities: " ++ e), [url])
  | .ok resp =>
    if resp.statusCode ≠ 200 then
      (.error ("failed to get activities: " ++ resp.status ++ " - " ++ resp.body),
        [url])
    else
      match resp.decoded with
      | .error e => (.error ("failed to decode activities: " ++ e), [url])
      | .ok [] => (.error "no activities found", [url])
      | .ok (a :: _) => (.ok a, [url])

/-- C9: `GetLatestActivity` requests the list endpoint with page size 1
(the sole URL it ever requests carries `per_page=1`); an empty decoded
result set yields the not-found error, and a non-empty one yields its first
element. -/
theorem getLatestActivity_spec (env : Except String ActivitiesHttpResponse) :
    (GetLatestActivity env).2 =
      ["https://www.strava.com/api/v3/athlete/activities?per_page=1"] ∧
    (∀ resp, env = .ok resp → resp.statusCode = 200 → resp.decoded = .ok [] →
      (GetLatestActivity env).1 = .error "no activities found") ∧
    (∀ resp a rest, env = .ok resp → resp.statusCode = 200 →
      resp.decoded = .ok (a :: rest) → (GetLatestActivity env).1 = .ok a) := by
  refine ⟨?_, ?_, ?_⟩
  · cases env with
    | error e => rfl
    | ok resp =>
      by_cases h : resp.statusCode ≠ 200
      · simp [GetLatestActivity, h]
      · cases hd : resp.decoded with
        | error e => simp [GetLatestActivity, h, hd]
        | ok l => cases l <;> simp [GetLatestActivity, h, hd]
  · intro resp henv hst hd
    subst henv
    simp [GetLatestActivity, hst, hd]
  · intro resp a rest henv hst hd
    subst henv
    simp [GetLatestActivity, hst, hd]

/-- A concrete 200 response whose body decodes to an empty list. -/
def respEmptyList : ActivitiesHttpResponse := ⟨200, "200 OK", "[]", .ok []⟩

/-- A concrete freshly-recorded activity. -/
def latestActivityA : Activity := ⟨42, "Morning Workout", "Workout", 0, ""⟩

/-- A concrete 200 response whose body decodes to one activity. -/
def respOneActivity : ActivitiesHttpResponse :=
  ⟨200, "200 OK", "[...]", .ok [latestActivityA]⟩

theorem getLatestActivity_spec_witness :
    (GetLatestActivity (.ok respEmptyList)).2 =
      ["https://www.strava.com/api/v3/athlete/activities?per_page=1"] ∧
    ((respEmptyList.statusCode = 200 ∧ respEmptyList.decoded = .ok []) ∧
      (GetLatestActivity (.ok respEmptyList)).1 = .error "no activities found") ∧
    ((respOneActivity.statusCode = 200 ∧
        respOneActivity.decoded = .ok [latestActivityA]) ∧
      (GetLatestActivity (.ok respOneActivity)).1 = .ok latestActivityA) :=
  ⟨(getLatestActivity_spec (.ok respEmptyList)).1,
    ⟨⟨rfl, rfl⟩,
      (getLatestActivity_spec (.ok respEmptyList)).2.1 respEmptyList rfl rfl rfl⟩,
    ⟨⟨rfl, rfl⟩,
      (getLatestActivity_spec (.ok respOneActivity)).2.2 respOneActivity
        latestActivityA [] rfl rfl rfl⟩⟩

end Strava
